import Mathlib

/-!
Verification development for the Skåne live-vehicle map (`src/app.js`).

The JavaScript source is shallowly embedded: JS numbers that may carry the
feed's sentinel values are modelled by `JNum` (`null`/`undefined`, a
non-finite value such as `NaN`, or a finite number as a rational), JS `Map`s
by association lists, and the module-level mutable state by explicit state
records threaded through the operations.  External collaborators (the feed,
the Leaflet map surface, the `TRIP_TO_LINE` lookup table, the projection
used for pixel distances, and the trigonometric heading computation) are
parameters of the corresponding definitions.
-/

namespace SkaneMap

/-- A JS numeric-ish value as it flows through this program.
`null` models both JS `null` and `undefined` (the program only ever
distinguishes them via `== null`, which treats them alike);
`nan` models any non-nullish value that is not a finite number (for this
feed: `NaN` or a non-numeric JSON value such as a string, both of which
behave as `NaN` under every numeric operation the program performs);
`num q` is a finite number. -/
inductive JNum where
  | null : JNum
  | nan : JNum
  | num (q : ℚ) : JNum
deriving DecidableEq

namespace JNum

/-- JS `Number.isFinite` (false on `null`/`undefined`/`NaN`/non-numbers). -/
def isFiniteJ : JNum → Bool
  | num _ => true
  | _ => false

/-- JS subtraction on the values reachable here.  Arithmetic on `null`
never happens in the program (shape validation removes nullish
coordinates before any arithmetic), so `null` operands are mapped to
`nan` like the other non-finite values. -/
def jsub : JNum → JNum → JNum
  | num a, num b => num (a - b)
  | _, _ => nan

/-- JS `Math.abs`. -/
def jabs : JNum → JNum
  | num a => num |a|
  | _ => nan

/-- JS `>` (false whenever an operand is not a finite number). -/
def jgt : JNum → JNum → Bool
  | num a, num b => decide (b < a)
  | _, _ => false

/-- JS `<` (false whenever an operand is not a finite number). -/
def jlt : JNum → JNum → Bool
  | num a, num b => decide (a < b)
  | _, _ => false

/-- JS addition (same caveat as `jsub`). -/
def jadd : JNum → JNum → JNum
  | num a, num b => num (a + b)
  | _, _ => nan

/-- JS multiplication (same caveat as `jsub`). -/
def jmul : JNum → JNum → JNum
  | num a, num b => num (a * b)
  | _, _ => nan

end JNum

open JNum

/-- A vehicle identity as the program stores it: the JS value of `raw.id`,
which is a string when present and `undefined` when the feed omits it.
(`none` is the omitted case.) -/
abbrev VId := Option String

/-- JS truthiness of an id value (`undefined`, `null` and `""` are falsy). -/
def vidTruthy : VId → Bool
  | none => false
  | some s => decide (s ≠ "")

/-! ### JS `Map` model: association lists keyed like a JS `Map` -/

section AssocMap

variable {κ : Type} {α : Type} [DecidableEq κ]

/-- JS `Map.get` / `Map.has` backing lookup. -/
def mapGet : List (κ × α) → κ → Option α
  | [], _ => none
  | p :: rest, k => if p.1 = k then some p.2 else mapGet rest k

/-- JS `Map.delete`. -/
def mapDelete : List (κ × α) → κ → List (κ × α)
  | [], _ => []
  | p :: rest, k => if p.1 = k then mapDelete rest k else p :: mapDelete rest k

/-- JS `Map.set` (entry order is irrelevant to every claim below). -/
def mapSet (m : List (κ × α)) (k : κ) (v : α) : List (κ × α) :=
  (k, v) :: mapDelete m k

/-- JS `Map.has`. -/
def mapHas (m : List (κ × α)) (k : κ) : Bool :=
  (mapGet m k).isSome

end AssocMap

/-! ### String utilities from `src/app.js` -/

/-- Does `needle` occur at the head of `hay`?  (Backing for JS
`String.prototype.includes`.) -/
def leadsWith : List Char → List Char → Bool
  | [], _ => true
  | _ :: _, [] => false
  | a :: as, b :: bs => a = b && leadsWith as bs

/-- Does `needle` occur anywhere in `hay`? -/
def occursIn (needle : List Char) : List Char → Bool
  | [] => leadsWith needle []
  | c :: rest => leadsWith needle (c :: rest) || occursIn needle rest

/-- JS `haystack.includes(needle)`. -/
def strIncludes (hay needle : String) : Bool :=
  occursIn needle.data hay.data

/-- JS `String.prototype.trim` over the character list (whitespace from
both ends). -/
def trimChars (cs : List Char) : List Char :=
  ((cs.dropWhile Char.isWhitespace).reverse.dropWhile Char.isWhitespace).reverse

/-- First suffix of the character list that starts with a decimal digit
(where the regex `/(\d+\s*[A-Z]+|\d+)/i` first matches). -/
def fromFirstDigit : List Char → Option (List Char)
  | [] => none
  | c :: rest => if c.isDigit then some (c :: rest) else fromFirstDigit rest

/-- The token matched by `/(\d+\s*[A-Z]+|\d+)/i` at a position that starts
with a digit: greedy digits, then optional whitespace followed by at least
one ASCII letter, else just the digits. -/
def lineToken (cs : List Char) : List Char :=
  let ds := cs.takeWhile Char.isDigit
  let rest1 := cs.drop ds.length
  let sp := rest1.takeWhile Char.isWhitespace
  let rest2 := rest1.drop sp.length
  let ls := rest2.takeWhile Char.isAlpha
  if ls.isEmpty then ds else ds ++ sp ++ ls

/-- Function `normalizeLine` from `src/app.js`: trim, take the first
number(+letters) token if any (else the whole string), strip whitespace,
uppercase.  (`String.toUpper` is ASCII-only; the matched token is made of
ASCII digits/letters, and the repository never feeds non-ASCII here.) -/
def normalizeLine (rawLine : Option String) : String :=
  let s := trimChars (rawLine.getD "").data
  let token :=
    match fromFirstDigit s with
    | some cs => lineToken cs
    | none => s
  String.mk ((token.filter (fun c => !c.isWhitespace)).map Char.toUpper)

/-- NFD-decompose-and-strip-combining-marks for the Latin-1 letters this
program can meet (the JS code lowercases first, then applies
`normalize("NFD").replace(/[̀-ͯ]/g, "")`; composing these with
the ASCII-only `toLower` below needs the uppercase variants mapped too). -/
def stripDiacritic : Char → Char
  | 'à' | 'á' | 'â' | 'ã' | 'ä' | 'å' | 'À' | 'Á' | 'Â' | 'Ã' | 'Ä' | 'Å' => 'a'
  | 'ç' | 'Ç' => 'c'
  | 'è' | 'é' | 'ê' | 'ë' | 'È' | 'É' | 'Ê' | 'Ë' => 'e'
  | 'ì' | 'í' | 'î' | 'ï' | 'Ì' | 'Í' | 'Î' | 'Ï' => 'i'
  | 'ñ' | 'Ñ' => 'n'
  | 'ò' | 'ó' | 'ô' | 'õ' | 'ö' | 'Ò' | 'Ó' | 'Ô' | 'Õ' | 'Ö' => 'o'
  | 'ù' | 'ú' | 'û' | 'ü' | 'Ù' | 'Ú' | 'Û' | 'Ü' => 'u'
  | 'ý' | 'ÿ' | 'Ý' => 'y'
  | c => c

/-- Function `normalizeDesc` from `src/app.js`: `String(raw ?? "")`, trim,
lowercase, strip diacritics. -/
def normalizeDesc (raw : Option String) : String :=
  String.mk (((trimChars (raw.getD "").data).map Char.toLower).map stripDiacritic)

/-! ### Skånetrafiken color rules -/

def COLORS_green : String := "#1FAE4B"
def COLORS_yellow : String := "#F4C430"
def COLORS_purple : String := "#7C3AED"
def COLORS_grey : String := "#6B7280"
def COLORS_red : String := "#D11B2D"
def COLORS_orange : String := "#F28C28"
def COLORS_blue : String := "#1E4ED8"
def COLORS_fallback : String := "#111827"

/-- Function `clamp255` from `src/app.js`. -/
def clamp255 (v : ℤ) : ℤ := max 0 (min 255 v)

/-- JS `Math.round` (half rounds toward +infinity). -/
def jsRound (q : ℚ) : ℤ := ⌊q + 1/2⌋

/-- Value of one hex digit. -/
def hexDigitVal (c : Char) : Option ℕ :=
  if c.isDigit then some (c.toNat - '0'.toNat)
  else if 'a' ≤ c ∧ c ≤ 'f' then some (c.toNat - 'a'.toNat + 10)
  else if 'A' ≤ c ∧ c ≤ 'F' then some (c.toNat - 'A'.toNat + 10)
  else none

/-- JS `parseInt(s, 16)`: parse the maximal valid prefix; no valid leading
digit gives `NaN` (`none` here). -/
def parseIntHex (cs : List Char) : Option ℕ :=
  match cs with
  | [] => none
  | c :: _ =>
    match hexDigitVal c with
    | none => none
    | some _ => some (go cs 0)
where
  go : List Char → ℕ → ℕ
  | [], acc => acc
  | c :: rest, acc =>
    match hexDigitVal c with
    | none => acc
    | some d => go rest (acc * 16 + d)

/-- Two lowercase hex digits, left-padded with `0` (mirrors
`n.toString(16).padStart(2, "0")` for `n` in `[0, 255]`). -/
def toHex2 (n : ℕ) : String :=
  let s := String.mk (Nat.toDigits 16 n)
  if s.length < 2 then "0" ++ s else s

/-- One color component of `darkenHex`: darken, round, clamp, format.
`none` is JS `NaN` flowing through `Math.round`/`Math.min`/`Math.max` and
printing as `"NaN"` (unreachable for this program's fixed color table). -/
def darkenComponent (amount : ℚ) : Option ℕ → String
  | none => "NaN"
  | some r => toHex2 (clamp255 (jsRound ((r : ℚ) * (1 - amount)))).toNat

/-- Remove the first `'#'` (JS `String.prototype.replace` with a string
pattern replaces only the first occurrence). -/
def dropFirstHash : List Char → List Char
  | [] => []
  | c :: rest => if c = '#' then rest else c :: dropFirstHash rest

/-- Function `darkenHex` from `src/app.js`. -/
def darkenHex (hex : String) (amount : ℚ) : String :=
  let h := String.mk (dropFirstHash hex.data)
  if h.length ≠ 6 then hex
  else
    let cs := h.data
    let dr := darkenComponent amount (parseIntHex (cs.take 2))
    let dg := darkenComponent amount (parseIntHex ((cs.drop 2).take 2))
    let db := darkenComponent amount (parseIntHex ((cs.drop 4).take 2))
    "#" ++ dr ++ dg ++ db

/-! ### Records: feed entries and enriched vehicles -/

/-- A record of the feed's JSON array, with the enrichment fields that
`enrich` adds by object spread (`none` before enrichment).  `id` is the JS
value of `raw.id` (`none` when the feed omits it); numeric-ish fields are
`JNum` (`JNum.null` when absent). -/
structure Vehicle where
  id : VId
  lat : JNum
  lon : JNum
  bearing : JNum
  speedKmh : JNum
  tripId : Option String
  ts : JNum
  line : Option String := none
  headsign : Option String := none
  type : Option String := none
  desc : Option String := none
deriving DecidableEq

/-- An entry of the external `TRIP_TO_LINE` lookup table. -/
structure LineInfo where
  line : Option String
  headsign : Option String
  type : Option String
  desc : Option String
deriving DecidableEq

/-- The style record returned by `styleForVehicle`. -/
structure VStyle where
  bg : String
  stroke : String
  text : String
  border : String
deriving DecidableEq

/-- Function `styleForVehicle` from `src/app.js`: first matching category
keyword wins; unknown descriptions get the fallback color. -/
def styleForVehicle (v : Vehicle) : VStyle :=
  let d := normalizeDesc v.desc
  let bg :=
    if strIncludes d "stadsbuss" || strIncludes d "sparvagn" || strIncludes d "spårvagn" then
      COLORS_green
    else if strIncludes d "regionbuss" || strIncludes d "skaneexpressen" ||
        strIncludes d "skåneexpressen" then
      COLORS_yellow
    else if strIncludes d "pagatag" || strIncludes d "pågatåg" then
      COLORS_purple
    else if strIncludes d "oresundstag" || strIncludes d "öresundståg" then
      COLORS_grey
    else if strIncludes d "nartrafik" || strIncludes d "närtrafik" ||
        strIncludes d "plusresor" || strIncludes d "plusresa" then
      COLORS_red
    else if strIncludes d "teb planerad" then
      COLORS_orange
    else if strIncludes d "farja" || strIncludes d "färja" || strIncludes d "ferry" then
      COLORS_blue
    else
      COLORS_fallback
  { bg := bg
    stroke := darkenHex bg (12/100)
    text := "#fff"
    border := "1px solid rgba(0,0,0,0.25)" }

/-- Function `iconKeyFor` from `src/app.js`: the icon signature is the fill
color, whether a bearing exists, and the pop flag. -/
def iconKeyFor (v : Vehicle) (bearingDeg : JNum) (pop : Bool) : String :=
  let st := styleForVehicle v
  let hasBearing := isFiniteJ bearingDeg
  st.bg ++ "|" ++ (if hasBearing then "b" else "d") ++ "|" ++ (if pop then "p" else "n")

/-! ### Poll and animation tuning constants -/

def POLL_MS : ℚ := 3000
def ANIM_MIN_MS : ℚ := 350
def ANIM_MAX_MS : ℚ := min (POLL_MS * 85/100) 2500

/-- Function `clamp` from `src/app.js`. -/
def clamp (n a b : ℚ) : ℚ := max a (min b n)

/-- Function `easeInOutCubic` from `src/app.js`. -/
def easeInOutCubic (t : ℚ) : ℚ :=
  if t < 1/2 then 4 * t * t * t else 1 - ((-2) * t + 2)^3 / 2

/-- Function `computeAnimMs` from `src/app.js`, with the on-screen pixel
distance (which goes through the external map widget's
`latLngToLayerPoint` projection and `Math.sqrt`) abstracted as `distPx`. -/
def computeAnimMs (distPx : JNum × JNum → JNum × JNum → ℚ)
    (fromP toP : JNum × JNum) : ℚ :=
  clamp (distPx fromP toP * 7) ANIM_MIN_MS ANIM_MAX_MS

/-! ### Motion animator -/

/-- An in-flight animation: the closure state captured by `animateTo`
(`from`, `to`, `start`, `durationMs`).  The scheduled frame handle is
implicit: a `MarkerState` whose `anim` is `some a` has exactly one pending
frame callback for `a`; replacing or clearing `anim` models
`cancelAnimationFrame` (the old closure never runs again). -/
structure Anim where
  fromPos : JNum × JNum
  toPos : JNum × JNum
  start : ℚ
  durationMs : ℚ
deriving DecidableEq

/-- The per-vehicle record stored in the `markers` map.  `pos` is the
position the arrow marker currently displays (`arrowMarker.getLatLng()`);
`group`/`arrowMarker` themselves live in the external map widget. -/
structure MarkerState where
  pos : JNum × JNum
  lastV : Vehicle
  lastPos : JNum × JNum
  hasBearing : Bool
  anim : Option Anim
  iconKey : String
deriving DecidableEq

/-- Function `animateTo` from `src/app.js`.  Returns the updated marker
record and the list of positions passed to `onFrame` synchronously during
the call (the fast path invokes it once; the slow path only schedules).
Times are rationals on the host's `performance.now()` clock. -/
def animateTo (m : MarkerState) (toPos : JNum × JNum) (durationMs : ℚ) (tNow : ℚ) :
    MarkerState × List (JNum × JNum) :=
  let fromP := m.pos
  let dLat := jabs (jsub fromP.1 toPos.1)
  let dLng := jabs (jsub fromP.2 toPos.2)
  if jlt dLat (JNum.num (1/100000000)) && jlt dLng (JNum.num (1/100000000)) then
    ({ m with pos := toPos, anim := none }, [toPos])
  else
    ({ m with anim := some { fromPos := fromP, toPos := toPos, start := tNow,
                             durationMs := durationMs } }, [])

/-- One invocation of the scheduled `step(now)` frame callback of
`src/app.js`'s `animateTo` (a no-op when no animation is pending — a
cancelled closure never runs).  Returns the updated marker record and the
positions passed to `onFrame`.  (In ℚ, `x / 0 = 0`; JS would give an
infinite `t` there, but every duration this program produces is clamped to
at least `ANIM_MIN_MS = 350`.) -/
def stepFrame (m : MarkerState) (now : ℚ) : MarkerState × List (JNum × JNum) :=
  match m.anim with
  | none => (m, [])
  | some a =>
    let t := min 1 ((now - a.start) / a.durationMs)
    let e := easeInOutCubic t
    let lat := jadd a.fromPos.1 (jmul (jsub a.toPos.1 a.fromPos.1) (JNum.num e))
    let lng := jadd a.fromPos.2 (jmul (jsub a.toPos.2 a.fromPos.2) (JNum.num e))
    let cur := (lat, lng)
    if t < 1 then ({ m with pos := cur }, [cur])
    else ({ m with pos := cur, anim := none }, [cur])

/-! ### Hover / pin label state -/

/-- JS truthiness of a label-variable value, which is `null` (`none`) or a
stored vehicle id (itself possibly degenerate). -/
def vidTruthyOpt : Option VId → Bool
  | none => false
  | some v => vidTruthy v

/-- The module-level label variables of `src/app.js`.  The two label
markers are abstracted to their existence (`true` when the corresponding
`L.marker` is on the map); at most one hover label and at most one pinned
label can exist at any time because each is a single variable. -/
structure LabelState where
  hoverVehicleId : Option VId
  hoverLabelMarker : Bool
  pinnedVehicleId : Option VId
  pinnedLabelMarker : Bool
  isPointerOverVehicle : Bool
deriving DecidableEq

/-- The initial label state (all variables `null` / `false`). -/
def initLabelState : LabelState :=
  { hoverVehicleId := none, hoverLabelMarker := false,
    pinnedVehicleId := none, pinnedLabelMarker := false,
    isPointerOverVehicle := false }

/-- Function `hideHoverLabel` from `src/app.js`. -/
def hideHoverLabel (ls : LabelState) (vehicleId : VId) : LabelState :=
  if ls.hoverVehicleId ≠ some vehicleId then ls
  else if ls.pinnedVehicleId = some vehicleId then ls
  else { ls with hoverLabelMarker := false, hoverVehicleId := none }

/-- Function `showHoverLabel` from `src/app.js` (the label icon and
position live in the map widget; only identity and existence are state). -/
def showHoverLabel (ls : LabelState) (id : VId) : LabelState :=
  if ls.pinnedVehicleId = some id then ls
  else
    let ls1 :=
      if vidTruthyOpt ls.hoverVehicleId && decide (ls.hoverVehicleId ≠ some id) &&
          ls.hoverLabelMarker then
        { ls with hoverLabelMarker := false }
      else ls
    { ls1 with hoverVehicleId := some id, hoverLabelMarker := true }

/-- Function `togglePinnedLabel` from `src/app.js`. -/
def togglePinnedLabel (ls : LabelState) (id : VId) : LabelState :=
  let ls1 :=
    if ls.hoverLabelMarker then
      { ls with hoverLabelMarker := false, hoverVehicleId := none }
    else ls
  let ls2 := { ls1 with isPointerOverVehicle := false }
  if ls2.pinnedVehicleId = some id then
    { ls2 with pinnedLabelMarker := false, pinnedVehicleId := none }
  else
    { ls2 with pinnedVehicleId := some id, pinnedLabelMarker := true }

/-- The map `click` handler of `src/app.js` (click on empty background). -/
def mapClickHandler (ls : LabelState) : LabelState :=
  let ls1 :=
    if ls.pinnedLabelMarker then
      { ls with pinnedLabelMarker := false, pinnedVehicleId := none }
    else ls
  let ls2 :=
    if ls1.hoverLabelMarker then
      { ls1 with hoverLabelMarker := false, hoverVehicleId := none }
    else ls1
  { ls2 with isPointerOverVehicle := false }

/-- The map `mousemove` handler of `src/app.js` (pointer moves while not
over any vehicle). -/
def mouseMoveHandler (ls : LabelState) : LabelState :=
  if !ls.isPointerOverVehicle && vidTruthyOpt ls.hoverVehicleId &&
      ls.hoverLabelMarker && decide (ls.pinnedVehicleId ≠ ls.hoverVehicleId) then
    match ls.hoverVehicleId with
    | some id => hideHoverLabel ls id
    | none => ls
  else ls

/-- The second half of `removeVehicleCompletely`'s label handling: clear
the pinned label when it references the removed id. -/
def clearPinnedFor (ls : LabelState) (id : VId) : LabelState :=
  if ls.pinnedVehicleId = some id then
    { ls with pinnedLabelMarker := false, pinnedVehicleId := none }
  else ls

/-- The label-side part of `removeVehicleCompletely` from `src/app.js`:
hide the hover label if it references the removed id, then clear the
pinned label if it does. -/
def vehRemovedLabel (ls : LabelState) (id : VId) : LabelState :=
  clearPinnedFor (if ls.hoverVehicleId = some id then hideHoverLabel ls id else ls) id

/-- The pointer / removal events that drive the label state machine
(each is a handler registered in `src/app.js`; marker handlers fire only
for vehicles the registry is rendering). -/
inductive LabelEvent where
  | mouseover (id : VId)
  | mouseout (id : VId)
  | vehClick (id : VId)
  | mapClick
  | mouseMove
  | vehRemoved (id : VId)

/-- One transition of the label state machine. -/
def labelStep (ls : LabelState) : LabelEvent → LabelState
  | .mouseover id => showHoverLabel { ls with isPointerOverVehicle := true } id
  | .mouseout id => hideHoverLabel { ls with isPointerOverVehicle := false } id
  | .vehClick id => togglePinnedLabel ls id
  | .mapClick => mapClickHandler ls
  | .mouseMove => mouseMoveHandler ls
  | .vehRemoved id => vehRemovedLabel ls id

/-- A label state reached from the initial state by a list of events. -/
def labelRun (evs : List LabelEvent) : LabelState :=
  evs.foldl labelStep initLabelState

/-! ### Enrichment adapter -/

/-- Function `enrich` from `src/app.js`, with the external `TRIP_TO_LINE`
table as the `lookup` parameter.  A falsy `tripId`, a missing table entry,
or an entry with a falsy `line` yields `none` (no render); otherwise the
record is spread with the normalized line and the pass-through fields. -/
def enrich (lookup : String → Option LineInfo) (v : Vehicle) : Option Vehicle :=
  match v.tripId with
  | none => none
  | some t =>
    if t = "" then none
    else
      match lookup t with
      | none => none
      | some info =>
        match info.line with
        | none => none
        | some l =>
          if l = "" then none
          else
            some { v with line := some (normalizeLine (some l)),
                          headsign := info.headsign,
                          type := info.type,
                          desc := info.desc }

/-! ### Agent registry state -/

/-- An entry of the `lastPos` map (`{lat, lon, ts}`). -/
structure PosRec where
  lat : JNum
  lon : JNum
  ts : JNum
deriving DecidableEq

/-- The four module-level tracking maps of `src/app.js`. -/
structure TrackState where
  markers : List (VId × MarkerState)
  lastPos : List (VId × PosRec)
  lastBearing : List (VId × JNum)
  bearingEstablished : List (VId × Bool)
deriving DecidableEq

/-- The empty tracking state (page load). -/
def initTrackState : TrackState :=
  { markers := [], lastPos := [], lastBearing := [], bearingEstablished := [] }

/-- The observable outputs of one `upsertVehicle` call:
`renderBearing` is the `bearingDeg` argument handed to the icon
construction (`hasBearingNow ? bearing : NaN`), `setIconCalled` records
whether `arrowMarker.setIcon` was invoked (the style-diffing path), and
`frames` are the positions passed synchronously to the animation's
`onFrame`. -/
structure UpsertOut where
  renderBearing : JNum
  setIconCalled : Bool
  frames : List (JNum × JNum)
deriving DecidableEq

/-- The movement epsilon of `upsertVehicle` (`0.00002` degrees). -/
def epsMove : JNum := JNum.num (2/100000)

/-- The feed-bearing gate of `upsertVehicle`
(`Number.isFinite(v.bearing) && v.bearing > 0`). -/
def feedBearingUsable (b : JNum) : Bool :=
  isFiniteJ b && jgt b (JNum.num 0)

/-- The position-derived heading of `upsertVehicle` (`src/app.js` lines
451-461): requires a remembered previous position with non-nullish
coordinates and movement beyond the 0.00002-degree epsilon in latitude or
longitude. -/
def derivedHeading (hFn : JNum → JNum → JNum → JNum → JNum)
    (st : TrackState) (v : Vehicle) : Option JNum :=
  match mapGet st.lastPos v.id with
  | none => none
  | some p =>
    if p.lat = JNum.null ∨ p.lon = JNum.null then none
    else
      let moved := jgt (jabs (jsub v.lat p.lat)) epsMove ||
                   jgt (jabs (jsub v.lon p.lon)) epsMove
      if moved then some (hFn p.lat p.lon v.lat v.lon) else none

/-- Function `upsertVehicle` from `src/app.js`.  `hFn` abstracts
`headingFromPoints` (trigonometric, external to this embedding) and
`distPx` the pixel distance of `computeAnimMs`; `tNow` is
`performance.now()` and `dNow` is `Date.now()`. -/
def upsertVehicle (hFn : JNum → JNum → JNum → JNum → JNum)
    (distPx : JNum × JNum → JNum × JNum → ℚ)
    (st : TrackState) (v : Vehicle) (tNow dNow : ℚ) : TrackState × UpsertOut :=
  let pos : JNum × JNum := (v.lat, v.lon)
  let (bearing1, est1) : JNum × Bool :=
    if feedBearingUsable v.bearing then (v.bearing, true) else (JNum.null, false)
  let derived : Option JNum :=
    if bearing1 = JNum.null then derivedHeading hFn st v else none
  let (bearing2, est2) : JNum × Bool :=
    match derived with
    | some b => (b, true)
    | none => (bearing1, est1)
  let st1 :=
    if est2 then
      { st with bearingEstablished := mapSet st.bearingEstablished v.id true,
                lastBearing := mapSet st.lastBearing v.id bearing2 }
    else st
  let bearing3 :=
    if bearing2 = JNum.null ∧ mapGet st1.bearingEstablished v.id = some true ∧
        (mapGet st1.lastBearing v.id).isSome then
      (mapGet st1.lastBearing v.id).getD JNum.null
    else bearing2
  let posRec : PosRec :=
    { lat := v.lat, lon := v.lon,
      ts := if v.ts = JNum.null then JNum.num dNow else v.ts }
  let st2 := { st1 with lastPos := mapSet st1.lastPos v.id posRec }
  let hasBearingNow := isFiniteJ bearing3
  let renderB := if hasBearingNow then bearing3 else JNum.nan
  match mapGet st2.markers v.id with
  | none =>
    let mk : MarkerState :=
      { pos := pos, lastV := v, lastPos := pos, hasBearing := hasBearingNow,
        anim := none, iconKey := iconKeyFor v renderB false }
    ({ st2 with markers := mapSet st2.markers v.id mk },
     { renderBearing := renderB, setIconCalled := false, frames := [] })
  | some m =>
    let hadBearingBefore := m.hasBearing
    let pop := !hadBearingBefore && hasBearingNow
    let nextKey := iconKeyFor v renderB pop
    let (iconKey2, setIconCalled) : String × Bool :=
      if m.iconKey = nextKey then (m.iconKey, false) else (nextKey, true)
    let m1 := { m with lastV := v, lastPos := pos, hasBearing := hasBearingNow,
                       iconKey := iconKey2 }
    let dur := computeAnimMs distPx m.pos pos
    let mf := animateTo m1 pos dur tNow
    ({ st2 with markers := mapSet st2.markers v.id mf.1 },
     { renderBearing := renderB, setIconCalled := setIconCalled, frames := mf.2 })

/-! ### Full engine state, removal, and the poller -/

/-- All module-level mutable state the poller touches. -/
structure FullState where
  track : TrackState
  label : LabelState
  isRefreshing : Bool
deriving DecidableEq

/-- The engine state at page load. -/
def initFullState : FullState :=
  { track := initTrackState, label := initLabelState, isRefreshing := false }

/-- Function `removeVehicleCompletely` from `src/app.js`: cancel any
animation (implicit in dropping the marker record), remove the visual,
forget every tracking map entry, and force-clear labels for the id. -/
def removeVehicleCompletely (s : FullState) (id : VId) : FullState :=
  match mapGet s.track.markers id with
  | none => s
  | some _ =>
    { s with
      track :=
        { markers := mapDelete s.track.markers id,
          lastPos := mapDelete s.track.lastPos id,
          lastBearing := mapDelete s.track.lastBearing id,
          bearingEstablished := mapDelete s.track.bearingEstablished id },
      label := vehRemovedLabel s.label id }

/-- Shape validation of one raw feed entry in `refreshLive`
(`!raw?.id || raw.lat == null || raw.lon == null`); a literal `null`
element of the JSON array behaves like a record with all fields absent. -/
def shapeInvalid (raw : Vehicle) : Bool :=
  !vidTruthy raw.id || decide (raw.lat = JNum.null) || decide (raw.lon = JNum.null)

/-- One iteration of the `for (const raw of data)` loop of `refreshLive`,
carrying the engine state and the `seen` identity set (a list with set
semantics, as built by `Set.add`). -/
def pollStep (lookup : String → Option LineInfo)
    (hFn : JNum → JNum → JNum → JNum → JNum)
    (distPx : JNum × JNum → JNum × JNum → ℚ) (tNow dNow : ℚ)
    (acc : FullState × List VId) (raw : Vehicle) : FullState × List VId :=
  if shapeInvalid raw then acc
  else
    match enrich lookup raw with
    | none => acc
    | some v =>
      let seen1 := if v.id ∈ acc.2 then acc.2 else v.id :: acc.2
      ({ acc.1 with track := (upsertVehicle hFn distPx acc.1.track v tNow dNow).1 },
       seen1)

/-- The whole record loop of `refreshLive`. -/
def pollLoop (lookup : String → Option LineInfo)
    (hFn : JNum → JNum → JNum → JNum → JNum)
    (distPx : JNum × JNum → JNum × JNum → ℚ) (tNow dNow : ℚ) :
    FullState × List VId → List Vehicle → FullState × List VId
  | acc, [] => acc
  | acc, raw :: rest =>
    pollLoop lookup hFn distPx tNow dNow (pollStep lookup hFn distPx tNow dNow acc raw) rest

/-- The reconcile loop of `refreshLive`
(`for (const [id] of markers.entries()) if (!seen.has(id)) removeVehicleCompletely(id)`). -/
def reconcileLoop (seen : List VId) : FullState → List VId → FullState
  | s, [] => s
  | s, id :: rest =>
    reconcileLoop seen (if id ∈ seen then s else removeVehicleCompletely s id) rest

/-- The identities of the records of one poll response that pass shape
validation and enrichment (the poll's `seen` set, as a list). -/
def seenOf (lookup : String → Option LineInfo) : List Vehicle → List VId
  | [] => []
  | raw :: rest =>
    if shapeInvalid raw then seenOf lookup rest
    else
      match enrich lookup raw with
      | none => seenOf lookup rest
      | some v => v.id :: seenOf lookup rest

/-- Function `refreshLive` from `src/app.js` as a state transformer.
`visible` is `document.visibilityState === "visible"`; `result` is the
outcome of `fetch` + `res.ok` + `res.json()` (`Except.error` for a network
error, a non-2xx status, or a JSON parse failure — all of which happen
before any state mutation).  The `finally` block releases the
single-flight flag on both paths; an error aborts the poll without
touching the tracking or label state. -/
def refreshLive (lookup : String → Option LineInfo)
    (hFn : JNum → JNum → JNum → JNum → JNum)
    (distPx : JNum × JNum → JNum × JNum → ℚ)
    (st : FullState) (visible : Bool) (result : Except Unit (List Vehicle))
    (tNow dNow : ℚ) : FullState :=
  if st.isRefreshing then st
  else if !visible then st
  else
    match result with
    | .error _ => { st with isRefreshing := false }
    | .ok data =>
      let stR := { st with isRefreshing := true }
      let (st1, seen) := pollLoop lookup hFn distPx tNow dNow (stR, []) data
      let st2 := reconcileLoop seen st1 (st1.track.markers.map Prod.fst)
      { st2 with isRefreshing := false }

/-! ### Concrete fixtures

Closed-form inputs used by the concrete instances below (a one-entry
lookup table, constant stand-ins for the external heading and projection
collaborators, and a few feed records and states). -/

def tripLookup : String → Option LineInfo :=
  fun t =>
    if t = "t1" then
      some { line := some "5", headsign := some "Centrum", type := some "BUS",
             desc := some "Stadsbuss" }
    else none

def hFnConst : JNum → JNum → JNum → JNum → JNum := fun _ _ _ _ => JNum.num 45

def dPxConst : JNum × JNum → JNum × JNum → ℚ := fun _ _ => 100

def vehA : Vehicle :=
  { id := some "a", lat := num 55, lon := num 13, bearing := JNum.null,
    speedKmh := JNum.null, tripId := some "t1", ts := JNum.null }

def vehNoId : Vehicle := { vehA with id := none }

def vehNanLat : Vehicle := { vehA with id := some "n", lat := JNum.nan }

/-- The marker record for `vehA` right after the poll that first
established a bearing (the pop poll): arrow icon with the pop flag in the
icon signature, no in-flight animation (the two reported positions were
equal, so `animateTo` took its snap path). -/
def markerPop : MarkerState :=
  { pos := (num 55, num 13), lastV := vehA, lastPos := (num 55, num 13),
    hasBearing := true, anim := none, iconKey := iconKeyFor vehA (JNum.num 90) true }

/-- The same marker in the steady state (pop flag off in the signature). -/
def markerSteady : MarkerState :=
  { markerPop with iconKey := iconKeyFor vehA (JNum.num 90) false }

/-- Tracking state after the pop poll for `vehA`. -/
def trackPop : TrackState :=
  { markers := [(some "a", markerPop)],
    lastPos := [(some "a", { lat := num 55, lon := num 13, ts := num 1 })],
    lastBearing := [(some "a", JNum.num 90)],
    bearingEstablished := [(some "a", true)] }

/-- Steady-state variant of `trackPop`. -/
def trackSteady : TrackState :=
  { trackPop with markers := [(some "a", markerSteady)] }

/-- Tracking state with an established bearing and no remembered previous
position for `vehA`. -/
def trackEstab : TrackState :=
  { markers := [(some "a", markerSteady)], lastPos := [],
    lastBearing := [(some "a", JNum.num 90)],
    bearingEstablished := [(some "a", true)] }

/-- A plain marker with no animation, used by the animator instances. -/
def markerIdle : MarkerState :=
  { pos := (num 55, num 13), lastV := vehA, lastPos := (num 55, num 13),
    hasBearing := false, anim := none, iconKey := "" }

/-! ## Theorems

Everything below is proof: association-map lemmas first, then the claims
about the label machine, the animator, the registry, and the poller. -/

section AssocMapLemmas

variable {κ : Type} {α : Type} [DecidableEq κ]

theorem mapGet_mapDelete (m : List (κ × α)) (k k' : κ) :
    mapGet (mapDelete m k) k' = if k = k' then none else mapGet m k' := by
  induction m with
  | nil => simp [mapDelete, mapGet]
  | cons p rest ih =>
    by_cases h1 : p.1 = k <;> by_cases h2 : p.1 = k' <;> by_cases h3 : k = k' <;>
      simp_all [mapDelete, mapGet, ih]

theorem mapGet_mapSet (m : List (κ × α)) (k k' : κ) (v : α) :
    mapGet (mapSet m k v) k' = if k = k' then some v else mapGet m k' := by
  by_cases h : k = k' <;> simp [mapSet, mapGet, h, mapGet_mapDelete]

theorem mapHas_mapSet (m : List (κ × α)) (k k' : κ) (v : α) :
    mapHas (mapSet m k v) k' = (k = k' || mapHas m k') := by
  by_cases h : k = k' <;> simp [mapHas, mapGet_mapSet, h]

theorem mapHas_mapDelete (m : List (κ × α)) (k k' : κ) :
    mapHas (mapDelete m k) k' = (!(k = k') && mapHas m k') := by
  by_cases h : k = k' <;> simp [mapHas, mapGet_mapDelete, h]

theorem mem_keys_of_mapHas (m : List (κ × α)) (k : κ) (h : mapHas m k = true) :
    k ∈ m.map Prod.fst := by
  induction m with
  | nil => simp [mapHas, mapGet] at h
  | cons p rest ih =>
    by_cases h1 : p.1 = k
    · simp [h1]
    · simp only [mapHas, mapGet, h1, if_neg] at h
      simpa using Or.inr (ih h)

end AssocMapLemmas

/-! ### Label state machine: mutual exclusion (C9) -/

/-- The label-machine invariant: each label variable pair is in sync (an
id is recorded exactly when its marker exists), and the hover and pinned
labels are never attached to the same identity. -/
def LabelInv (ls : LabelState) : Prop :=
  (ls.hoverVehicleId.isSome → ls.hoverLabelMarker = true) ∧
  (ls.pinnedVehicleId.isSome → ls.pinnedLabelMarker = true) ∧
  (ls.hoverVehicleId.isSome → ls.hoverVehicleId ≠ ls.pinnedVehicleId)

theorem labelInv_init : LabelInv initLabelState := by
  simp [LabelInv, initLabelState]

theorem hideHoverLabel_eq_of_ne (ls : LabelState) (id : VId)
    (h : ls.hoverVehicleId ≠ some id) : hideHoverLabel ls id = ls := by
  simp [hideHoverLabel, h]

theorem hideHoverLabel_eq_of_pinned (ls : LabelState) (id : VId)
    (h : ls.pinnedVehicleId = some id) : hideHoverLabel ls id = ls := by
  by_cases h1 : ls.hoverVehicleId = some id <;> simp [hideHoverLabel, h1, h]

theorem hideHoverLabel_eq_of_clear (ls : LabelState) (id : VId)
    (h1 : ls.hoverVehicleId = some id) (h2 : ls.pinnedVehicleId ≠ some id) :
    hideHoverLabel ls id = { ls with hoverLabelMarker := false, hoverVehicleId := none } := by
  simp [hideHoverLabel, h1, h2]

theorem showHoverLabel_eq_of_pinned (ls : LabelState) (id : VId)
    (h : ls.pinnedVehicleId = some id) : showHoverLabel ls id = ls := by
  simp [showHoverLabel, h]

theorem showHoverLabel_fields (ls : LabelState) (id : VId)
    (h : ls.pinnedVehicleId ≠ some id) :
    (showHoverLabel ls id).hoverVehicleId = some id ∧
    (showHoverLabel ls id).hoverLabelMarker = true ∧
    (showHoverLabel ls id).pinnedVehicleId = ls.pinnedVehicleId ∧
    (showHoverLabel ls id).pinnedLabelMarker = ls.pinnedLabelMarker := by
  unfold showHoverLabel
  rw [if_neg h]
  dsimp only
  split <;> simp

theorem togglePinnedLabel_fields (ls : LabelState) (id : VId)
    (hsync : ls.hoverVehicleId.isSome → ls.hoverLabelMarker = true)
    (hnp : ls.pinnedVehicleId ≠ some id) :
    (togglePinnedLabel ls id).pinnedVehicleId = some id ∧
    (togglePinnedLabel ls id).pinnedLabelMarker = true ∧
    (togglePinnedLabel ls id).hoverVehicleId = none ∧
    (togglePinnedLabel ls id).hoverLabelMarker = false := by
  by_cases hm : ls.hoverLabelMarker
  · simp [togglePinnedLabel, hm, hnp]
  · have hhv : ls.hoverVehicleId = none := by
      cases hv : ls.hoverVehicleId with
      | none => rfl
      | some x => exact absurd (hsync (by simp [hv])) (by simpa using hm)
    simp [togglePinnedLabel, hm, hnp, hhv]

theorem togglePinnedLabel_unpin_fields (ls : LabelState) (id : VId)
    (hp : ls.pinnedVehicleId = some id) :
    (togglePinnedLabel ls id).pinnedVehicleId = none ∧
    (togglePinnedLabel ls id).pinnedLabelMarker = false ∧
    (togglePinnedLabel ls id).hoverVehicleId =
      (if ls.hoverLabelMarker then none else ls.hoverVehicleId) ∧
    (togglePinnedLabel ls id).hoverLabelMarker = false := by
  by_cases hm : ls.hoverLabelMarker <;> simp [togglePinnedLabel, hm, hp]

theorem labelInv_clearHover (ls : LabelState) (h : LabelInv ls) :
    LabelInv { ls with hoverLabelMarker := false, hoverVehicleId := none } :=
  ⟨by simp, h.2.1, by simp⟩

theorem labelInv_clearPinned (ls : LabelState) (h : LabelInv ls) :
    LabelInv { ls with pinnedLabelMarker := false, pinnedVehicleId := none } := by
  refine ⟨h.1, by simp, fun hs => ?_⟩
  show ls.hoverVehicleId ≠ none
  intro he
  rw [he] at hs
  simp at hs

theorem labelInv_hideHoverLabel (ls : LabelState) (id : VId) (h : LabelInv ls) :
    LabelInv (hideHoverLabel ls id) := by
  by_cases h1 : ls.hoverVehicleId = some id
  · by_cases h2 : ls.pinnedVehicleId = some id
    · rwa [hideHoverLabel_eq_of_pinned ls id h2]
    · rw [hideHoverLabel_eq_of_clear ls id h1 h2]
      exact labelInv_clearHover ls h
  · rwa [hideHoverLabel_eq_of_ne ls id h1]

theorem labelInv_showHoverLabel (ls : LabelState) (id : VId) (h : LabelInv ls) :
    LabelInv (showHoverLabel ls id) := by
  by_cases hp : ls.pinnedVehicleId = some id
  · rwa [showHoverLabel_eq_of_pinned ls id hp]
  · obtain ⟨f1, f2, f3, f4⟩ := showHoverLabel_fields ls id hp
    refine ⟨fun _ => f2, fun hs => ?_, fun _ => ?_⟩
    · rw [f4]
      rw [f3] at hs
      exact h.2.1 hs
    · rw [f1, f3]
      exact fun he => hp he.symm

theorem labelInv_togglePinnedLabel (ls : LabelState) (id : VId) (h : LabelInv ls) :
    LabelInv (togglePinnedLabel ls id) := by
  by_cases hp : ls.pinnedVehicleId = some id
  · obtain ⟨f1, f2, f3, f4⟩ := togglePinnedLabel_unpin_fields ls id hp
    refine ⟨fun hs => ?_, fun hs => ?_, fun hs => ?_⟩
    · rw [f3] at hs
      split at hs
      · simp at hs
      · rename_i hm
        exact absurd (h.1 hs) (by simpa using hm)
    · rw [f1] at hs
      simp at hs
    · rw [f1]
      intro he
      rw [he] at hs
      simp at hs
  · obtain ⟨f1, f2, f3, f4⟩ := togglePinnedLabel_fields ls id h.1 hp
    refine ⟨fun hs => ?_, fun _ => f2, fun hs => ?_⟩
    · rw [f3] at hs
      simp at hs
    · rw [f3] at hs
      simp at hs

theorem labelInv_mapClickHandler (ls : LabelState) (h : LabelInv ls) :
    LabelInv (mapClickHandler ls) := by
  unfold mapClickHandler
  have i1 : LabelInv (if ls.pinnedLabelMarker then
      { ls with pinnedLabelMarker := false, pinnedVehicleId := none } else ls) := by
    split
    · exact labelInv_clearPinned ls h
    · exact h
  set ls1 := if ls.pinnedLabelMarker then
      { ls with pinnedLabelMarker := false, pinnedVehicleId := none } else ls with hls1
  have i2 : LabelInv (if ls1.hoverLabelMarker then
      { ls1 with hoverLabelMarker := false, hoverVehicleId := none } else ls1) := by
    split
    · exact labelInv_clearHover ls1 i1
    · exact i1
  exact i2

theorem labelInv_mouseMoveHandler (ls : LabelState) (h : LabelInv ls) :
    LabelInv (mouseMoveHandler ls) := by
  unfold mouseMoveHandler
  split
  · split
    · exact labelInv_hideHoverLabel _ _ h
    · exact h
  · exact h

theorem labelInv_clearPinnedFor (ls : LabelState) (id : VId) (h : LabelInv ls) :
    LabelInv (clearPinnedFor ls id) := by
  unfold clearPinnedFor
  split
  · exact labelInv_clearPinned ls h
  · exact h

theorem labelInv_vehRemovedLabel (ls : LabelState) (id : VId) (h : LabelInv ls) :
    LabelInv (vehRemovedLabel ls id) := by
  unfold vehRemovedLabel
  apply labelInv_clearPinnedFor
  split
  · exact labelInv_hideHoverLabel ls id h
  · exact h

theorem labelInv_step (ls : LabelState) (e : LabelEvent) (h : LabelInv ls) :
    LabelInv (labelStep ls e) := by
  have hset1 : LabelInv { ls with isPointerOverVehicle := true } := h
  have hset2 : LabelInv { ls with isPointerOverVehicle := false } := h
  cases e with
  | mouseover id => exact labelInv_showHoverLabel _ id hset1
  | mouseout id => exact labelInv_hideHoverLabel _ id hset2
  | vehClick id => exact labelInv_togglePinnedLabel _ id h
  | mapClick => exact labelInv_mapClickHandler _ h
  | mouseMove => exact labelInv_mouseMoveHandler _ h
  | vehRemoved id => exact labelInv_vehRemovedLabel _ id h

theorem labelInv_run (evs : List LabelEvent) : LabelInv (labelRun evs) := by
  suffices h : ∀ s, LabelInv s → LabelInv (evs.foldl labelStep s) from
    h _ labelInv_init
  induction evs with
  | nil => exact fun s hs => hs
  | cons e rest ih => exact fun s hs => ih _ (labelInv_step s e hs)

/-- C9: in every reachable state of the label state machine the hover
label and the pinned label are never attached to the same identity; and
clicking (pinning) an identity `a` that is not currently pinned — whether
some other identity or `a` itself is hovered — leaves exactly the pinned
label for `a`: pinned id `a` with its marker present, hover id cleared and
hover marker removed.  (At most one hover and one pinned label exist at
any time by construction: each is a single module-level variable,
modelled as a single field of `LabelState`.) -/
theorem label_mutual_exclusion (evs : List LabelEvent) :
    (∀ x : VId, ¬((labelRun evs).hoverVehicleId = some x ∧
        (labelRun evs).pinnedVehicleId = some x)) ∧
    (∀ a : VId, (labelRun evs).pinnedVehicleId ≠ some a →
      (labelStep (labelRun evs) (.vehClick a)).pinnedVehicleId = some a ∧
      (labelStep (labelRun evs) (.vehClick a)).pinnedLabelMarker = true ∧
      (labelStep (labelRun evs) (.vehClick a)).hoverVehicleId = none ∧
      (labelStep (labelRun evs) (.vehClick a)).hoverLabelMarker = false) := by
  have h := labelInv_run evs
  constructor
  · rintro x ⟨hh, hp⟩
    exact (h.2.2 (by simp [hh])) (hh.trans hp.symm)
  · intro a hnp
    exact togglePinnedLabel_fields (labelRun evs) a h.1 hnp

theorem label_mutual_exclusion_witness :
    (¬((labelRun [LabelEvent.mouseover (some "b")]).hoverVehicleId = some (some "b") ∧
        (labelRun [LabelEvent.mouseover (some "b")]).pinnedVehicleId = some (some "b"))) ∧
    (labelRun [LabelEvent.mouseover (some "b")]).pinnedVehicleId ≠ some (some "a") ∧
    (labelStep (labelRun [LabelEvent.mouseover (some "b")])
        (.vehClick (some "a"))).pinnedVehicleId = some (some "a") ∧
    (labelStep (labelRun [LabelEvent.mouseover (some "b")])
        (.vehClick (some "a"))).hoverVehicleId = none := by
  refine ⟨(label_mutual_exclusion _).1 (some "b"), by decide, ?_, ?_⟩
  · exact ((label_mutual_exclusion [LabelEvent.mouseover (some "b")]).2
      (some "a") (by decide)).1
  · exact ((label_mutual_exclusion [LabelEvent.mouseover (some "b")]).2
      (some "a") (by decide)).2.2.1

/-! ### Motion animator (C7, C8) -/

/-- A position with finite coordinates. -/
def finitePair (p : JNum × JNum) : Prop :=
  (∃ a : ℚ, p.1 = JNum.num a) ∧ (∃ b : ℚ, p.2 = JNum.num b)

/-- A marker whose displayed position and any in-flight animation
endpoints are finite. -/
def markerFinite (m : MarkerState) : Prop :=
  finitePair m.pos ∧ ∀ a, m.anim = some a → finitePair a.fromPos ∧ finitePair a.toPos

theorem markerFinite_animateTo (m : MarkerState) (toP : JNum × JNum) (dur t : ℚ)
    (hm : markerFinite m) (ht : finitePair toP) :
    markerFinite (animateTo m toP dur t).1 := by
  unfold animateTo
  dsimp only
  split
  · exact ⟨ht, fun a ha => by simp at ha⟩
  · refine ⟨hm.1, fun a ha => ?_⟩
    simp only [Option.some.injEq] at ha
    rw [← ha]
    exact ⟨hm.1, ht⟩

theorem markerFinite_stepFrame (m : MarkerState) (now : ℚ) (hm : markerFinite m) :
    markerFinite (stepFrame m now).1 := by
  unfold stepFrame
  cases han : m.anim with
  | none => exact hm
  | some a =>
    obtain ⟨⟨ffa, hffa⟩, ffb, hffb⟩ := (hm.2 a han).1
    obtain ⟨⟨tta, htta⟩, ttb, httb⟩ := (hm.2 a han).2
    have hcur1 : ∃ q : ℚ, jadd a.fromPos.1
        (jmul (jsub a.toPos.1 a.fromPos.1)
          (JNum.num (easeInOutCubic (min 1 ((now - a.start) / a.durationMs))))) =
        JNum.num q := by
      rw [hffa, htta]
      exact ⟨_, rfl⟩
    have hcur2 : ∃ q : ℚ, jadd a.fromPos.2
        (jmul (jsub a.toPos.2 a.fromPos.2)
          (JNum.num (easeInOutCubic (min 1 ((now - a.start) / a.durationMs))))) =
        JNum.num q := by
      rw [hffb, httb]
      exact ⟨_, rfl⟩
    dsimp only
    split
    · exact ⟨⟨hcur1, hcur2⟩, fun b hb => hm.2 b (han ▸ hb)⟩
    · exact ⟨⟨hcur1, hcur2⟩, fun b hb => by simp at hb⟩

theorem markerFinite_foldlSteps (ts : List ℚ) (m : MarkerState) (hm : markerFinite m) :
    markerFinite (ts.foldl (fun mm tt => (stepFrame mm tt).1) m) := by
  induction ts generalizing m with
  | nil => exact hm
  | cons t rest ih => exact ih _ (markerFinite_stepFrame m t hm)

theorem easeInOutCubic_one : easeInOutCubic 1 = 1 := by
  unfold easeInOutCubic
  norm_num

/-- A pending animation whose deadline has passed lands the marker exactly
on the animation's target and clears the handle, with one `onFrame` call
at the target. -/
theorem stepFrame_complete (m : MarkerState) (a : Anim) (ha : m.anim = some a)
    (fa fb pa pb : ℚ) (hfrom : a.fromPos = (JNum.num fa, JNum.num fb))
    (hto : a.toPos = (JNum.num pa, JNum.num pb))
    (hd : 0 < a.durationMs) (now : ℚ) (hnow : a.start + a.durationMs ≤ now) :
    (stepFrame m now).1.pos = a.toPos ∧ (stepFrame m now).1.anim = none ∧
    (stepFrame m now).2 = [a.toPos] := by
  have ht : min 1 ((now - a.start) / a.durationMs) = 1 := by
    apply min_eq_left
    rw [le_div_iff₀ hd]
    linarith
  have hlt : ¬(min 1 ((now - a.start) / a.durationMs) < 1) := by
    rw [ht]
    exact lt_irrefl 1
  simp only [stepFrame, ha, ht, hlt, if_neg, easeInOutCubic_one, not_false_eq_true]
  rw [hfrom, hto]
  simp only [jsub, jmul, jadd]
  refine ⟨?_, rfl, ?_⟩ <;> simp

theorem stepFrame_none (m : MarkerState) (now : ℚ) (h : m.anim = none) :
    stepFrame m now = (m, []) := by
  simp [stepFrame, h]

/-- C7: starting a second animation replaces the first — the marker holds
at most one animation handle, and after the replacement that handle (when
the snap path was not taken) carries exactly the second call's target and
duration; once the second animation's deadline passes, one frame step puts
the marker exactly at the second target (not a blend) and clears the
handle.  `ts` are the frame times of the first animation that ran before
the replacement. -/
theorem anim_cancel_and_replace (m : MarkerState) (hm : markerFinite m)
    (p1 : JNum × JNum) (hp1 : finitePair p1) (d1 t0 : ℚ) (ts : List ℚ)
    (pa pb : ℚ) (d2 t1 now : ℚ) (hd2 : 0 < d2) (hnow : t1 + d2 ≤ now) :
    ∀ m1 m2 : MarkerState,
      m1 = ts.foldl (fun mm tt => (stepFrame mm tt).1) (animateTo m p1 d1 t0).1 →
      m2 = (animateTo m1 (JNum.num pa, JNum.num pb) d2 t1).1 →
      (∀ a, m2.anim = some a →
        a.toPos = (JNum.num pa, JNum.num pb) ∧ a.durationMs = d2) ∧
      (stepFrame m2 now).1.pos = (JNum.num pa, JNum.num pb) ∧
      (stepFrame m2 now).1.anim = none := by
  intro m1 m2 hm1 hm2
  have hfin1 : markerFinite m1 := by
    rw [hm1]
    exact markerFinite_foldlSteps ts _ (markerFinite_animateTo m p1 d1 t0 hm hp1)
  obtain ⟨⟨ma, hma⟩, mb, hmb⟩ := hfin1.1
  rw [animateTo] at hm2
  by_cases hc : (jlt (jabs (jsub m1.pos.1 (JNum.num pa))) (JNum.num (1/100000000)) &&
      jlt (jabs (jsub m1.pos.2 (JNum.num pb))) (JNum.num (1/100000000))) = true
  · rw [if_pos hc] at hm2
    have hanim : m2.anim = none := by rw [hm2]
    have hpos : m2.pos = (JNum.num pa, JNum.num pb) := by rw [hm2]
    rw [stepFrame_none m2 now hanim]
    exact ⟨fun a ha => absurd (hanim ▸ ha) (by simp), hpos, hanim⟩
  · rw [if_neg hc] at hm2
    have hanim : m2.anim = some
        { fromPos := m1.pos, toPos := (JNum.num pa, JNum.num pb),
          start := t1, durationMs := d2 } := by rw [hm2]
    have hc1 := stepFrame_complete m2 _ hanim ma mb pa pb
      (show m1.pos = (JNum.num ma, JNum.num mb) from Prod.ext hma hmb) rfl hd2 now hnow
    refine ⟨fun a ha => ?_, hc1.1, hc1.2.1⟩
    rw [hanim] at ha
    simp only [Option.some.injEq] at ha
    rw [← ha]
    exact ⟨rfl, rfl⟩

theorem anim_cancel_and_replace_witness :
    markerFinite markerIdle ∧ finitePair (JNum.num 56, JNum.num 14) ∧
    ((0:ℚ) < 1000) ∧ ((0:ℚ) + 1000 ≤ 1000) ∧
    ∀ m2 : MarkerState,
      m2 = (animateTo ([].foldl (fun mm tt => (stepFrame mm tt).1)
          (animateTo markerIdle (JNum.num 56, JNum.num 14) 500 0).1)
          (JNum.num 57, JNum.num 15) 1000 0).1 →
      (stepFrame m2 1000).1.pos = (JNum.num 57, JNum.num 15) ∧
      (stepFrame m2 1000).1.anim = none := by
  refine ⟨⟨⟨⟨55, rfl⟩, 13, rfl⟩, fun a ha => by simp [markerIdle] at ha⟩,
    ⟨⟨56, rfl⟩, 14, rfl⟩, by decide, by simp, ?_⟩
  intro m2 h2
  have h := anim_cancel_and_replace markerIdle ⟨⟨⟨55, rfl⟩, 13, rfl⟩, fun a ha => by
      simp [markerIdle] at ha⟩
    (JNum.num 56, JNum.num 14) ⟨⟨56, rfl⟩, 14, rfl⟩ 500 0 [] 57 15 1000 0 1000
    (by decide) (by simp) _ m2 rfl h2
  exact ⟨h.2.1, h.2.2⟩

/-- C8: when the current and target positions differ by less than `1e-8`
in both coordinates, `animateTo` snaps the marker to the target, creates
no frame handle (the animation field is left cleared), and still invokes
`onFrame` exactly once, with the target position. -/
theorem anim_snap_fast_path (m : MarkerState) (fa fb pa pb : ℚ)
    (hpos : m.pos = (JNum.num fa, JNum.num fb))
    (hlat : |fa - pa| < 1/100000000) (hlng : |fb - pb| < 1/100000000)
    (dur tNow : ℚ) :
    animateTo m (JNum.num pa, JNum.num pb) dur tNow =
      ({ m with pos := (JNum.num pa, JNum.num pb), anim := none },
       [(JNum.num pa, JNum.num pb)]) := by
  unfold animateTo
  rw [hpos]
  simp only [jsub, jabs, jlt]
  rw [if_pos]
  simp only [Bool.and_eq_true, decide_eq_true_eq]
  exact ⟨hlat, hlng⟩

theorem anim_snap_fast_path_witness :
    markerIdle.pos = (JNum.num 55, JNum.num 13) ∧
    |(55:ℚ) - 55| < 1/100000000 ∧ |(13:ℚ) - 13| < 1/100000000 ∧
    animateTo markerIdle (JNum.num 55, JNum.num 13) 700 0 =
      ({ markerIdle with pos := (JNum.num 55, JNum.num 13), anim := none },
       [(JNum.num 55, JNum.num 13)]) := by
  refine ⟨rfl, by norm_num, by norm_num, ?_⟩
  exact anim_snap_fast_path markerIdle 55 13 55 13 rfl (by norm_num) (by norm_num) 700 0

/-! ### Agent registry: bearing policy (C2, C3, C10) -/

theorem animateTo_keeps (m : MarkerState) (toP : JNum × JNum) (dur t : ℚ) :
    (animateTo m toP dur t).1.hasBearing = m.hasBearing ∧
    (animateTo m toP dur t).1.iconKey = m.iconKey ∧
    (animateTo m toP dur t).1.lastV = m.lastV ∧
    (animateTo m toP dur t).1.lastPos = m.lastPos := by
  unfold animateTo
  dsimp only
  split <;> exact ⟨rfl, rfl, rfl, rfl⟩

/-- C2: bearing establishment is monotonic.  If an identity has
`bearingEstablished = true` with a (finite) `lastBearing` value, then an
`upsertVehicle` whose record supplies no usable feed bearing (finite and
positive) and no derivable heading (no remembered previous position, or a
nullish one, or movement within the 0.00002-degree epsilon) renders with
exactly the stored bearing, leaves `lastBearing` and `bearingEstablished`
untouched, and keeps the marker in the has-bearing (arrow) state — it
never reverts to the dot state. -/
theorem bearing_monotonic (hFn : JNum → JNum → JNum → JNum → JNum)
    (distPx : JNum × JNum → JNum × JNum → ℚ)
    (st : TrackState) (v : Vehicle) (tNow dNow : ℚ) (b : ℚ)
    (hest : mapGet st.bearingEstablished v.id = some true)
    (hlb : mapGet st.lastBearing v.id = some (JNum.num b))
    (hnofeed : feedBearingUsable v.bearing = false)
    (hnoder : ∀ p, mapGet st.lastPos v.id = some p →
      p.lat = JNum.null ∨ p.lon = JNum.null ∨
      (jgt (jabs (jsub v.lat p.lat)) epsMove ||
       jgt (jabs (jsub v.lon p.lon)) epsMove) = false) :
    (upsertVehicle hFn distPx st v tNow dNow).2.renderBearing = JNum.num b ∧
    mapGet (upsertVehicle hFn distPx st v tNow dNow).1.lastBearing v.id =
      some (JNum.num b) ∧
    mapGet (upsertVehicle hFn distPx st v tNow dNow).1.bearingEstablished v.id =
      some true ∧
    (mapGet (upsertVehicle hFn distPx st v tNow dNow).1.markers v.id).map
      MarkerState.hasBearing = some true := by
  have hder : derivedHeading hFn st v = none := by
    unfold derivedHeading
    cases hp : mapGet st.lastPos v.id with
    | none => rfl
    | some p =>
      dsimp only
      rcases hnoder p hp with h | h | h
      · rw [if_pos (Or.inl h)]
      · rw [if_pos (Or.inr h)]
      · by_cases hn : p.lat = JNum.null ∨ p.lon = JNum.null
        · rw [if_pos hn]
        · rw [if_neg hn, h]
          rfl
  unfold upsertVehicle
  rw [hnofeed]
  simp only [Bool.false_eq_true, if_false, hder, hlb, hest, Option.isSome_some,
    Option.getD_some, eq_self_iff_true, true_and, and_true, if_true, isFiniteJ]
  cases hmk : mapGet st.markers v.id with
  | none =>
    simp only [hmk]
    refine ⟨by trivial, by trivial, by trivial, ?_⟩
    rw [mapGet_mapSet]
    simp
  | some m =>
    simp only [hmk]
    refine ⟨by trivial, by trivial, by trivial, ?_⟩
    rw [mapGet_mapSet]
    simp [(animateTo_keeps _ _ _ _).1]

theorem bearing_monotonic_witness :
    mapGet trackEstab.bearingEstablished (some "a") = some true ∧
    mapGet trackEstab.lastBearing (some "a") = some (JNum.num 90) ∧
    feedBearingUsable vehA.bearing = false ∧
    (upsertVehicle hFnConst dPxConst trackEstab vehA 5 5).2.renderBearing = JNum.num 90 ∧
    (mapGet (upsertVehicle hFnConst dPxConst trackEstab vehA 5 5).1.markers
      (some "a")).map MarkerState.hasBearing = some true := by
  have h := bearing_monotonic hFnConst dPxConst trackEstab vehA 5 5 90
    rfl rfl (by decide) (fun p hp => by simp [trackEstab, mapGet] at hp)
  exact ⟨rfl, rfl, by decide, h.1, h.2.2.2⟩

theorem animateTo_fst_form (m : MarkerState) (toP : JNum × JNum) (dur t : ℚ) :
    (animateTo m toP dur t).1 =
      (if (jlt (jabs (jsub m.pos.1 toP.1)) (JNum.num (1/100000000)) &&
           jlt (jabs (jsub m.pos.2 toP.2)) (JNum.num (1/100000000))) = true
       then { m with pos := toP, anim := none }
       else { m with anim := some { fromPos := m.pos, toPos := toP,
                                    start := t, durationMs := dur } }) := by
  unfold animateTo
  dsimp only
  split <;> simp_all

theorem animateTo_snd_form (m : MarkerState) (toP : JNum × JNum) (dur t : ℚ) :
    (animateTo m toP dur t).2 =
      (if (jlt (jabs (jsub m.pos.1 toP.1)) (JNum.num (1/100000000)) &&
           jlt (jabs (jsub m.pos.2 toP.2)) (JNum.num (1/100000000))) = true
       then [toP] else []) := by
  unfold animateTo
  dsimp only
  split <;> simp_all

theorem iconKeyFor_bearing_update (v : Vehicle) (b x : JNum) (p : Bool) :
    iconKeyFor { v with bearing := b } x p = iconKeyFor v x p := rfl

theorem derivedHeading_bearing_update (hFn : JNum → JNum → JNum → JNum → JNum)
    (st : TrackState) (v : Vehicle) (b : JNum) :
    derivedHeading hFn st { v with bearing := b } = derivedHeading hFn st v := rfl

/-- C3: a feed bearing of exactly 0 is treated as unknown, never as due
north: `upsertVehicle` on a record with `bearing = 0` behaves exactly as
on the same record with the bearing absent, on every bearing-relevant
observable — the rendered bearing, the `setIcon` decision and `onFrame`
positions, the `lastBearing`, `bearingEstablished` and `lastPos` maps, and
every marker field except the stored copy of the raw record (`lastV`,
which holds the record verbatim and is used only for label text). -/
theorem bearing_zero_unknown (hFn : JNum → JNum → JNum → JNum → JNum)
    (distPx : JNum × JNum → JNum × JNum → ℚ)
    (st : TrackState) (v : Vehicle) (tNow dNow : ℚ) :
    (upsertVehicle hFn distPx st { v with bearing := JNum.num 0 } tNow dNow).2 =
      (upsertVehicle hFn distPx st { v with bearing := JNum.null } tNow dNow).2 ∧
    (upsertVehicle hFn distPx st { v with bearing := JNum.num 0 } tNow dNow).1.lastBearing =
      (upsertVehicle hFn distPx st { v with bearing := JNum.null } tNow dNow).1.lastBearing ∧
    (upsertVehicle hFn distPx st { v with bearing := JNum.num 0 } tNow
        dNow).1.bearingEstablished =
      (upsertVehicle hFn distPx st { v with bearing := JNum.null } tNow
        dNow).1.bearingEstablished ∧
    (upsertVehicle hFn distPx st { v with bearing := JNum.num 0 } tNow dNow).1.lastPos =
      (upsertVehicle hFn distPx st { v with bearing := JNum.null } tNow dNow).1.lastPos ∧
    (mapGet (upsertVehicle hFn distPx st { v with bearing := JNum.num 0 } tNow
        dNow).1.markers v.id).map
      (fun mm => (mm.pos, mm.lastPos, mm.hasBearing, mm.anim, mm.iconKey)) =
    (mapGet (upsertVehicle hFn distPx st { v with bearing := JNum.null } tNow
        dNow).1.markers v.id).map
      (fun mm => (mm.pos, mm.lastPos, mm.hasBearing, mm.anim, mm.iconKey)) := by
  have h0 : feedBearingUsable (JNum.num 0) = false := by decide
  have hn : feedBearingUsable JNum.null = false := by decide
  cases hd : derivedHeading hFn st v with
  | none =>
    cases hmk : mapGet st.markers v.id with
    | none =>
      refine ⟨?_, ?_, ?_, ?_, ?_⟩ <;>
        simp only [upsertVehicle, h0, hn, Bool.false_eq_true, if_false, if_true,
          ite_true, ite_false, eq_self_iff_true, derivedHeading_bearing_update, hd,
          hmk, iconKeyFor_bearing_update, mapGet_mapSet, Option.map_some,
          animateTo_fst_form, animateTo_snd_form, true_and, and_true,
          Option.isSome_some, Option.getD_some] <;>
        first
        | rfl
        | (split <;> rfl)
    | some m =>
      refine ⟨?_, ?_, ?_, ?_, ?_⟩ <;>
        simp only [upsertVehicle, h0, hn, Bool.false_eq_true, if_false, if_true,
          ite_true, ite_false, eq_self_iff_true, derivedHeading_bearing_update, hd,
          hmk, iconKeyFor_bearing_update, mapGet_mapSet, Option.map_some,
          animateTo_fst_form, animateTo_snd_form, true_and, and_true,
          Option.isSome_some, Option.getD_some] <;>
        first
        | rfl
        | (split <;> rfl)
  | some b =>
    cases hmk : mapGet st.markers v.id with
    | none =>
      refine ⟨?_, ?_, ?_, ?_, ?_⟩ <;>
        simp only [upsertVehicle, h0, hn, Bool.false_eq_true, if_false, if_true,
          ite_true, ite_false, eq_self_iff_true, derivedHeading_bearing_update, hd,
          hmk, iconKeyFor_bearing_update, mapGet_mapSet, Option.map_some,
          animateTo_fst_form, animateTo_snd_form, true_and, and_true,
          Option.isSome_some, Option.getD_some] <;>
        first
        | rfl
        | (split <;> rfl)
    | some m =>
      refine ⟨?_, ?_, ?_, ?_, ?_⟩ <;>
        simp only [upsertVehicle, h0, hn, Bool.false_eq_true, if_false, if_true,
          ite_true, ite_false, eq_self_iff_true, derivedHeading_bearing_update, hd,
          hmk, iconKeyFor_bearing_update, mapGet_mapSet, Option.map_some,
          animateTo_fst_form, animateTo_snd_form, true_and, and_true,
          Option.isSome_some, Option.getD_some] <;>
        first
        | rfl
        | (split <;> rfl)

theorem iconKeyFor_presence (v : Vehicle) (b b' : JNum) (p : Bool)
    (h : isFiniteJ b = isFiniteJ b') : iconKeyFor v b p = iconKeyFor v b' p := by
  simp only [iconKeyFor, h]

/-- C10 (amended): the icon signature depends only on the fill color, on
whether a bearing exists, and on the pop flag — never on the bearing's
numeric value.  Consequently, for a tracked agent already in the
has-bearing state whose stored icon signature was computed with the pop
flag off (that is, its bearing was already present before the previous
poll as well), a new poll supplying a usable feed bearing of any value
does not call `setIcon` — so the displayed arrow rotation is not updated
by the style-diffing path.  (The original claim fails without the
pop-flag-off condition; see the counterexample.) -/
theorem icon_key_presence_only :
    (∀ (v : Vehicle) (b b' : JNum) (p : Bool), isFiniteJ b = isFiniteJ b' →
      iconKeyFor v b p = iconKeyFor v b' p) ∧
    (∀ (hFn : JNum → JNum → JNum → JNum → JNum)
       (distPx : JNum × JNum → JNum × JNum → ℚ)
       (st : TrackState) (v : Vehicle) (tNow dNow : ℚ) (m : MarkerState),
      mapGet st.markers v.id = some m →
      m.hasBearing = true →
      m.iconKey = iconKeyFor v (JNum.num 1) false →
      feedBearingUsable v.bearing = true →
      (upsertVehicle hFn distPx st v tNow dNow).2.setIconCalled = false) := by
  refine ⟨iconKeyFor_presence, ?_⟩
  intro hFn distPx st v tNow dNow m hmk hb hkey hfeed
  obtain ⟨q, hq⟩ : ∃ q, v.bearing = JNum.num q := by
    cases hbv : v.bearing <;>
      simp [feedBearingUsable, isFiniteJ, hbv] at hfeed ⊢
  have hkq : m.iconKey = iconKeyFor v (JNum.num q) false :=
    hkey.trans (iconKeyFor_presence v (JNum.num 1) (JNum.num q) false rfl)
  have hne : (JNum.num q = JNum.null) = False := by simp
  unfold upsertVehicle
  rw [hfeed]
  simp only [if_true, ite_true, hq, hne, if_false, ite_false, false_and,
    Bool.false_eq_true, isFiniteJ, hmk, hb, Bool.not_true, Bool.false_and,
    hkq, eq_self_iff_true]

theorem icon_key_presence_only_witness :
    mapGet trackSteady.markers (some "a") = some markerSteady ∧
    markerSteady.hasBearing = true ∧
    markerSteady.iconKey = iconKeyFor { vehA with bearing := JNum.num 7 }
      (JNum.num 1) false ∧
    feedBearingUsable (JNum.num 7) = true ∧
    (upsertVehicle hFnConst dPxConst trackSteady
      { vehA with bearing := JNum.num 7 } 3 3).2.setIconCalled = false := by
  refine ⟨rfl, rfl, by decide, by decide, ?_⟩
  exact icon_key_presence_only.2 hFnConst dPxConst trackSteady
    { vehA with bearing := JNum.num 7 } 3 3 markerSteady rfl rfl (by decide) (by decide)

/-- C10 counterexample to the original claim: `trackPop` is the state
right after the poll that first established a bearing (value 90) for agent
`"a"` — its stored icon signature carries the pop flag.  The next poll
supplies bearing 180: the fill color is unchanged, bearing presence is
unchanged (has-bearing before and after), only the numeric value changed —
yet `setIcon` IS called (the signature's pop component flips from `p` to
`n`), contradicting the claim that the icon is never re-rendered in this
situation. -/
theorem icon_rerendered_after_pop_cex :
    (mapGet trackPop.markers (some "a")).map MarkerState.hasBearing = some true ∧
    mapGet trackPop.lastBearing (some "a") = some (JNum.num 90) ∧
    feedBearingUsable (JNum.num 180) = true ∧
    (styleForVehicle { vehA with bearing := JNum.num 180 }).bg =
      (styleForVehicle vehA).bg ∧
    isFiniteJ (upsertVehicle hFnConst dPxConst trackPop
      { vehA with bearing := JNum.num 180 } 2 2).2.renderBearing = true ∧
    (upsertVehicle hFnConst dPxConst trackPop
      { vehA with bearing := JNum.num 180 } 2 2).2.setIconCalled = true := by
  exact ⟨rfl, rfl, by decide, rfl, by decide, by decide⟩

/-! ### Snapshot poller (C1, C4, C5, C6) -/

theorem trackstate_estIte_markers (st : TrackState) (e : Bool)
    (lb : List (VId × JNum)) (be : List (VId × Bool)) :
    (if e = true then
        { st with bearingEstablished := be, lastBearing := lb }
      else st).markers = st.markers := by
  split <;> rfl

theorem upsert_markers_shape (hFn : JNum → JNum → JNum → JNum → JNum)
    (distPx : JNum × JNum → JNum × JNum → ℚ)
    (st : TrackState) (v : Vehicle) (tNow dNow : ℚ) :
    ∃ ms, (upsertVehicle hFn distPx st v tNow dNow).1.markers =
      mapSet st.markers v.id ms := by
  unfold upsertVehicle
  dsimp only
  rw [trackstate_estIte_markers]
  cases hmk : mapGet st.markers v.id <;> exact ⟨_, rfl⟩

theorem upsert_mapHas (hFn : JNum → JNum → JNum → JNum → JNum)
    (distPx : JNum × JNum → JNum × JNum → ℚ)
    (st : TrackState) (v : Vehicle) (tNow dNow : ℚ) (k : VId) :
    mapHas (upsertVehicle hFn distPx st v tNow dNow).1.markers k =
      (v.id = k || mapHas st.markers k) := by
  obtain ⟨ms, hms⟩ := upsert_markers_shape hFn distPx st v tNow dNow
  rw [hms, mapHas_mapSet]

theorem remove_mapHas (s : FullState) (id k : VId) :
    mapHas (removeVehicleCompletely s id).track.markers k =
      (!(id = k) && mapHas s.track.markers k) := by
  unfold removeVehicleCompletely
  cases hmk : mapGet s.track.markers id with
  | none =>
    dsimp only
    by_cases h : id = k
    · subst h
      simp [mapHas, hmk]
    · simp [h]
  | some m =>
    dsimp only
    rw [mapHas_mapDelete]

theorem reconcileLoop_mapHas (seen : List VId) (ids : List VId) (s : FullState) (k : VId) :
    mapHas (reconcileLoop seen s ids).track.markers k = true ↔
      (mapHas s.track.markers k = true ∧ (k ∈ ids → k ∈ seen)) := by
  induction ids generalizing s with
  | nil => simp [reconcileLoop]
  | cons id rest ih =>
    unfold reconcileLoop
    by_cases hs : id ∈ seen
    · rw [if_pos hs, ih]
      constructor
      · rintro ⟨h1, h2⟩
        refine ⟨h1, fun hm => ?_⟩
        rcases List.mem_cons.mp hm with h | h
        · rwa [h]
        · exact h2 h
      · rintro ⟨h1, h2⟩
        exact ⟨h1, fun hm => h2 (List.mem_cons_of_mem id hm)⟩
    · rw [if_neg hs, ih, remove_mapHas]
      by_cases hk : id = k
      · subst hk
        constructor
        · rintro ⟨h1, h2⟩
          simp at h1
        · rintro ⟨h1, h2⟩
          exact absurd (h2 (List.mem_cons_self id rest)) hs
      · have hdk : (decide (id = k)) = false := decide_eq_false hk
        simp only [hdk, Bool.not_false, Bool.true_and]
        constructor
        · rintro ⟨h1, h2⟩
          refine ⟨h1, fun hm => ?_⟩
          rcases List.mem_cons.mp hm with h | h
          · exact absurd h.symm hk
          · exact h2 h
        · rintro ⟨h1, h2⟩
          exact ⟨h1, fun hm => h2 (List.mem_cons_of_mem id hm)⟩

theorem seenOf_invalid (lookup : String → Option LineInfo) (raw : Vehicle)
    (rest : List Vehicle) (h : shapeInvalid raw = true) :
    seenOf lookup (raw :: rest) = seenOf lookup rest := by
  simp only [seenOf, h, if_true]

theorem seenOf_unenrichable (lookup : String → Option LineInfo) (raw : Vehicle)
    (rest : List Vehicle) (h : shapeInvalid raw = false)
    (he : enrich lookup raw = none) :
    seenOf lookup (raw :: rest) = seenOf lookup rest := by
  simp only [seenOf, h, he, Bool.false_eq_true, if_false]

theorem seenOf_enriched (lookup : String → Option LineInfo) (raw : Vehicle)
    (rest : List Vehicle) (v : Vehicle) (h : shapeInvalid raw = false)
    (he : enrich lookup raw = some v) :
    seenOf lookup (raw :: rest) = v.id :: seenOf lookup rest := by
  simp only [seenOf, h, he, Bool.false_eq_true, if_false]

set_option maxHeartbeats 1600000 in
theorem pollLoop_spec (lookup : String → Option LineInfo)
    (hFn : JNum → JNum → JNum → JNum → JNum)
    (distPx : JNum × JNum → JNum × JNum → ℚ) (tNow dNow : ℚ)
    (data : List Vehicle) (s : FullState) (acc : List VId) (k : VId) :
    (mapHas (pollLoop lookup hFn distPx tNow dNow (s, acc) data).1.track.markers k = true ↔
      (mapHas s.track.markers k = true ∨ k ∈ seenOf lookup data)) ∧
    (k ∈ (pollLoop lookup hFn distPx tNow dNow (s, acc) data).2 ↔
      (k ∈ acc ∨ k ∈ seenOf lookup data)) := by
  induction data generalizing s acc with
  | nil => simp [pollLoop, seenOf]
  | cons raw rest ih =>
    unfold pollLoop pollStep
    cases hv : shapeInvalid raw with
    | true =>
      rw [if_pos rfl, seenOf_invalid lookup raw rest hv]
      exact ih s acc
    | false =>
      rw [if_neg (by simp)]
      cases he : enrich lookup raw with
      | none =>
        rw [seenOf_unenrichable lookup raw rest hv he]
        exact ih s acc
      | some v =>
        rw [seenOf_enriched lookup raw rest v hv he]
        dsimp only
        obtain ⟨ih1, ih2⟩ := ih
          { s with track := (upsertVehicle hFn distPx s.track v tNow dNow).1 }
          (if v.id ∈ acc then acc else v.id :: acc)
        have hup : mapHas ({ s with
            track := (upsertVehicle hFn distPx s.track v tNow dNow).1 } :
              FullState).track.markers k = true ↔
            (k = v.id ∨ mapHas s.track.markers k = true) := by
          dsimp only
          rw [upsert_mapHas]
          simp only [Bool.or_eq_true, decide_eq_true_eq]
          exact or_congr eq_comm Iff.rfl
        have hacc : k ∈ (if v.id ∈ acc then acc else v.id :: acc) ↔
            (k = v.id ∨ k ∈ acc) := by
          by_cases hmem : v.id ∈ acc
          · rw [if_pos hmem]
            constructor
            · exact fun h => Or.inr h
            · rintro (h | h)
              · rwa [h]
              · exact h
          · rw [if_neg hmem]
            exact List.mem_cons
        constructor
        · rw [ih1, hup, List.mem_cons]
          tauto
        · rw [ih2, hacc, List.mem_cons]
          tauto

/-- C1: after a completed successful poll, the tracked identities (keys of
the `markers` map) are exactly the identities of the records in that
poll's response that passed shape validation and enrichment: no agent
tracked before the poll survives reconcile unless its identity is in that
set, and every identity in that set is tracked. -/
theorem poll_reconcile_exact (lookup : String → Option LineInfo)
    (hFn : JNum → JNum → JNum → JNum → JNum)
    (distPx : JNum × JNum → JNum × JNum → ℚ)
    (st : FullState) (data : List Vehicle) (tNow dNow : ℚ) (k : VId)
    (hflight : st.isRefreshing = false) :
    mapHas (refreshLive lookup hFn distPx st true (.ok data) tNow
      dNow).track.markers k = true ↔ k ∈ seenOf lookup data := by
  unfold refreshLive
  rw [hflight]
  simp only [Bool.false_eq_true, if_false, Bool.not_true]
  rcases hp : pollLoop lookup hFn distPx tNow dNow
    ({ st with isRefreshing := true }, []) data with ⟨st1, seen⟩
  dsimp only
  have hs := pollLoop_spec lookup hFn distPx tNow dNow data
    { st with isRefreshing := true } [] k
  rw [hp] at hs
  dsimp only at hs
  rw [reconcileLoop_mapHas]
  constructor
  · rintro ⟨h1, h2⟩
    have hmem : k ∈ seen := h2 (mem_keys_of_mapHas st1.track.markers k h1)
    rcases hs.2.mp hmem with h | h
    · exact absurd h (List.not_mem_nil k)
    · exact h
  · intro hseen
    refine ⟨hs.1.mpr (Or.inr hseen), fun _ => hs.2.mpr (Or.inr hseen)⟩

theorem poll_reconcile_exact_witness :
    initFullState.isRefreshing = false ∧
    (mapHas (refreshLive tripLookup hFnConst dPxConst initFullState true
      (.ok [vehA]) 0 0).track.markers (some "a") = true ↔
      (some "a") ∈ seenOf tripLookup [vehA]) :=
  ⟨rfl, poll_reconcile_exact tripLookup hFnConst dPxConst initFullState
    [vehA] 0 0 (some "a") rfl⟩

/-- C6: a poll that fails (network error, non-2xx status, or JSON parse
failure — all of which happen before any state mutation) leaves the
tracking maps and label state entirely unchanged, and the single-flight
flag is released so the next scheduled tick can run a new poll. -/
theorem poll_failure_noop (lookup : String → Option LineInfo)
    (hFn : JNum → JNum → JNum → JNum → JNum)
    (distPx : JNum × JNum → JNum × JNum → ℚ)
    (st : FullState) (e : Unit) (tNow dNow : ℚ)
    (hflight : st.isRefreshing = false) :
    refreshLive lookup hFn distPx st true (.error e) tNow dNow = st ∧
    (refreshLive lookup hFn distPx st true (.error e) tNow dNow).isRefreshing =
      false := by
  have h1 : refreshLive lookup hFn distPx st true (.error e) tNow dNow = st := by
    unfold refreshLive
    rw [hflight]
    simp only [Bool.false_eq_true, if_false, Bool.not_true]
    rcases st with ⟨tr, lb, ir⟩
    simp only [FullState.mk.injEq, true_and]
    simpa using hflight.symm
  exact ⟨h1, by rw [h1]; exact hflight⟩

theorem poll_failure_noop_witness :
    initFullState.isRefreshing = false ∧
    refreshLive tripLookup hFnConst dPxConst initFullState true
      (.error ()) 0 0 = initFullState :=
  ⟨rfl, (poll_failure_noop tripLookup hFnConst dPxConst initFullState () 0 0 rfl).1⟩

/-- C4 (amended): a feed record that omits the identity field is dropped
by shape validation — it contributes nothing to the poll (no upsert, no
entry in the poll's identity set, hence no tracked agent and no rendered
visual).  No synthetic coordinate-string identity is created. -/
theorem missing_id_record_skipped (lookup : String → Option LineInfo)
    (hFn : JNum → JNum → JNum → JNum → JNum)
    (distPx : JNum × JNum → JNum × JNum → ℚ) (tNow dNow : ℚ)
    (acc : FullState × List VId) (raw : Vehicle) (rest : List Vehicle)
    (h : raw.id = none) :
    pollStep lookup hFn distPx tNow dNow acc raw = acc ∧
    seenOf lookup (raw :: rest) = seenOf lookup rest := by
  have hv : shapeInvalid raw = true := by
    simp [shapeInvalid, vidTruthy, h]
  exact ⟨by simp [pollStep, hv], seenOf_invalid lookup raw rest hv⟩

theorem missing_id_record_skipped_witness :
    vehNoId.id = none ∧
    pollStep tripLookup hFnConst dPxConst 0 0 (initFullState, []) vehNoId =
      (initFullState, []) ∧
    seenOf tripLookup [vehNoId] = seenOf tripLookup [] := by
  refine ⟨rfl, ?_, ?_⟩
  · exact (missing_id_record_skipped tripLookup hFnConst dPxConst 0 0
      (initFullState, []) vehNoId [] rfl).1
  · exact (missing_id_record_skipped tripLookup hFnConst dPxConst 0 0
      (initFullState, []) vehNoId [] rfl).2

/-- C4 counterexample to the original claim: a poll whose only record has
no identity (but valid coordinates and an enrichable trip) produces an
empty registry — the record is dropped, not rendered under a synthetic
coordinate-string identity. -/
theorem missing_id_dropped_cex :
    vehNoId.id = none ∧
    (refreshLive tripLookup hFnConst dPxConst initFullState true
      (.ok [vehNoId]) 0 0).track.markers = [] ∧
    seenOf tripLookup [vehNoId] = [] := by
  exact ⟨rfl, by decide, by decide⟩

/-- C5 (amended): shape validation rejects exactly the records with a
falsy identity or a nullish (`null`/`undefined`) coordinate.  A
non-finite but non-nullish coordinate (`NaN`, or a non-numeric JSON value)
passes shape validation, and when the record also enriches it is upserted
into the registry and its identity joins the poll's identity set — the
record is not discarded. -/
theorem shape_validation_nullish_only (lookup : String → Option LineInfo)
    (hFn : JNum → JNum → JNum → JNum → JNum)
    (distPx : JNum × JNum → JNum × JNum → ℚ) (tNow dNow : ℚ) :
    (∀ raw : Vehicle, raw.lat = JNum.null ∨ raw.lon = JNum.null ∨
      vidTruthy raw.id = false → shapeInvalid raw = true) ∧
    (∀ raw : Vehicle, vidTruthy raw.id = true → raw.lat ≠ JNum.null →
      raw.lon ≠ JNum.null → shapeInvalid raw = false) ∧
    (∀ (acc : FullState × List VId) (raw v : Vehicle),
      shapeInvalid raw = false → enrich lookup raw = some v →
      pollStep lookup hFn distPx tNow dNow acc raw =
        ({ acc.1 with track := (upsertVehicle hFn distPx acc.1.track v tNow dNow).1 },
         if v.id ∈ acc.2 then acc.2 else v.id :: acc.2)) := by
  refine ⟨?_, ?_, ?_⟩
  · intro raw h
    rcases h with h | h | h <;> simp [shapeInvalid, h]
  · intro raw hid hlat hlon
    simp [shapeInvalid, hid, hlat, hlon]
  · intro acc raw v hv he
    simp [pollStep, hv, he]

theorem shape_validation_nullish_only_witness :
    vidTruthy vehNanLat.id = true ∧ vehNanLat.lat ≠ JNum.null ∧
    vehNanLat.lon ≠ JNum.null ∧ shapeInvalid vehNanLat = false := by
  refine ⟨by decide, by decide, by decide, ?_⟩
  exact (shape_validation_nullish_only tripLookup hFnConst dPxConst 0 0).2.1
    vehNanLat (by decide) (by decide) (by decide)

/-- C5 counterexample to the original claim: a record whose latitude is a
non-finite, non-nullish value (`NaN`-like) is NOT discarded by shape
validation — it passes validation, is enriched, and produces a tracked
agent in that poll. -/
theorem nan_coordinate_not_discarded_cex :
    vehNanLat.lat = JNum.nan ∧ shapeInvalid vehNanLat = false ∧
    mapHas (refreshLive tripLookup hFnConst dPxConst initFullState true
      (.ok [vehNanLat]) 0 0).track.markers (some "n") = true := by
  exact ⟨rfl, by decide, by decide⟩

end SkaneMap